import Mathlib

/-!
Verification of the Noviam CV document-generation core.

The definitions below are a shallow embedding of the repository code:

* the resume data model and the block-level composer are translated from
  scripts/generate_cv.js (function generateCV and its helpers
  createSectionHeading, createJobHeader, createBulletPoint);
* the required-field validation is translated from lib/aligner.js
  (function alignCV, the check on cvData.name and cvData.professionalSummary
  that runs before the generator is ever invoked);
* the output-filename derivation is translated from lib/generator.js
  (the wrapper around the generator script).

JavaScript truthiness is modelled explicitly: an absent field is none, an
empty string is falsy, an array is truthy exactly when it is non-empty, and
a present object is always truthy.  Purely presentational attributes that no
specification sentence refers to (the fixed font name, tab stops, page
margins) are not carried in the paragraph model; colors, sizes, bold and
italic flags, spacing, borders, keep-with-next hints and numbering
references are all retained.
-/

/-- Brand color constant noviamBlue from the COLORS table of generate_cv.js. -/
def noviamBlue : String := "004796"

/-- Brand color constant noviamMidBlue from the COLORS table of generate_cv.js. -/
def noviamMidBlue : String := "006BFF"

/-- Brand color constant darkGrey from the COLORS table of generate_cv.js. -/
def darkGrey : String := "626366"

/-- Brand color constant black from the COLORS table of generate_cv.js. -/
def black : String := "000000"

/-- Native live page-number fields of the docx format
(PageNumber.CURRENT and PageNumber.TOTAL_PAGES in generate_cv.js). -/
inductive PageField where
  | current
  | totalPages
deriving DecidableEq

/-- Properties of a text run (the TextRun options object of the docx
library that generate_cv.js fills in; the fixed font name is omitted). -/
structure RunProps where
  text : String
  bold : Bool := false
  italics : Bool := false
  size : Option Nat := none
  color : Option String := none
deriving DecidableEq

/-- A run inside a paragraph: plain styled text, the embedded logo image,
or a native live page-number field. -/
inductive Run where
  | textRun (props : RunProps)
  | imageRun (width : Nat) (height : Nat)
  | pageFieldRun (field : PageField) (size : Nat) (color : String)
deriving DecidableEq

/-- A block-level paragraph, mirroring the Paragraph options objects built
in generate_cv.js.  bottomBorder records the colored bottom border rule
that only section headings carry; numberingRef records the named bullet
numbering definition a list item references; keepNext is the non-splitting
affinity hint. -/
structure Paragraph where
  spacingBefore : Option Nat := none
  spacingAfter : Option Nat := none
  keepNext : Bool := false
  keepLines : Bool := false
  bottomBorder : Bool := false
  numberingRef : Option String := none
  children : List Run := []
deriving DecidableEq

/-- One entry of professionalExperience (JSON shape documented at the top
of generate_cv.js). -/
structure JobEntry where
  role : String
  company : String
  location : String
  dates : String
  achievements : Option (List String)
deriving DecidableEq

/-- One entry of education. -/
structure EducationEntry where
  degree : String
  institution : String
  location : String
  date : String
  details : Option String
deriving DecidableEq

/-- One entry of certifications. -/
structure CertEntry where
  name : String
  details : Option String
deriving DecidableEq

/-- One entry of leadership (same shape as a job entry but with an
organization field instead of company and location). -/
structure LeadershipEntry where
  role : String
  organization : String
  dates : String
  achievements : Option (List String)
deriving DecidableEq

/-- The technicalSkills object: both fields optional strings. -/
structure TechnicalSkills where
  technical : Option String
  languages : Option String
deriving DecidableEq

/-- The resume data object passed to generateCV.  Every field models a
JSON property that may be absent (none). -/
structure ResumeDocument where
  name : Option String := none
  professionalSummary : Option String := none
  coreCompetencies : Option (List String) := none
  professionalExperience : Option (List JobEntry) := none
  education : Option (List EducationEntry) := none
  certifications : Option (List CertEntry) := none
  leadership : Option (List LeadershipEntry) := none
  technicalSkills : Option TechnicalSkills := none
deriving DecidableEq

/-- JavaScript truthiness of an optional string field: absent and the
empty string are falsy, every other string is truthy. -/
def strTruthy : Option String → Bool
  | none => false
  | some s => !(s == "")

/-- JavaScript truthiness of the guard pattern arr and arr.length greater
than zero used throughout generateCV: absent is falsy, a present array is
kept only when non-empty. -/
def listTruthy {α : Type} : Option (List α) → Bool
  | none => false
  | some l => decide (0 < l.length)

/-- Model of the JavaScript toUpperCase call on the ASCII section titles. -/
def jsToUpperCase (s : String) : String := String.mk (s.data.map Char.toUpper)

/-- Translation of createSectionHeading in generate_cv.js: uppercased bold
title in noviamBlue with a noviamMidBlue bottom border rule. -/
def createSectionHeading (text : String) : Paragraph :=
  { spacingBefore := some 300
    spacingAfter := some 120
    keepNext := true
    keepLines := true
    bottomBorder := true
    children := [Run.textRun { text := jsToUpperCase text, bold := true, size := some 22, color := some noviamBlue }] }

/-- Translation of createJobHeader in generate_cv.js. -/
def createJobHeader (role company location dates : String) : Paragraph :=
  { spacingBefore := some 200
    spacingAfter := some 60
    keepNext := true
    keepLines := true
    children := [
      Run.textRun { text := role, bold := true, size := some 20, color := some noviamMidBlue },
      Run.textRun { text := " | ", size := some 20, color := some noviamMidBlue },
      Run.textRun { text := company ++ ", " ++ location, size := some 20, color := some noviamMidBlue },
      Run.textRun { text := " | ", size := some 20, color := some noviamMidBlue },
      Run.textRun { text := dates, italics := true, size := some 20, color := some noviamMidBlue }] }

/-- Translation of createBulletPoint in generate_cv.js: a list item
referencing a named numbering definition, with an optional keep-with-next
hint. -/
def createBulletPoint (text : String) (reference : String) (keepWithNext : Bool) : Paragraph :=
  { numberingRef := some reference
    spacingBefore := some 40
    spacingAfter := some 40
    keepNext := keepWithNext
    keepLines := true
    children := [Run.textRun { text := text, size := some 20, color := some black }] }

/-- The logo paragraph pushed first when the logo asset file exists. -/
def logoParagraph : Paragraph :=
  { spacingAfter := some 300, children := [Run.imageRun 180 45] }

/-- The candidate-name paragraph (always pushed; in the running service the
name has already been validated as present before the generator runs). -/
def nameParagraph (name : String) : Paragraph :=
  { spacingBefore := some 200
    spacingAfter := some 300
    children := [Run.textRun { text := name, bold := true, size := some 40, color := some darkGrey }] }

/-- The professional-summary body paragraph. -/
def summaryParagraph (text : String) : Paragraph :=
  { spacingBefore := some 80
    spacingAfter := some 120
    keepLines := true
    children := [Run.textRun { text := text, size := some 20, color := some black }] }

/-- The core-competencies body paragraph: the items joined by the fixed
delimiter, input order preserved (join on the array in generate_cv.js). -/
def competenciesParagraph (items : List String) : Paragraph :=
  { spacingBefore := some 80
    spacingAfter := some 120
    keepLines := true
    children := [Run.textRun { text := String.intercalate "  •  " items, size := some 20, color := some black }] }

/-- The bullet paragraphs of one achievements group: every bullet except
the last in the group carries the keep-with-next hint (the isLastBullet
logic in generate_cv.js). -/
def bulletBlocks (reference : String) (achievements : List String) : List Paragraph :=
  achievements.enum.map
    (fun ia => createBulletPoint ia.2 reference (!(ia.1 == achievements.length - 1)))

/-- The blocks contributed by one professional-experience entry: the job
header, then the bullet list when the achievements array is truthy. -/
def jobBlocks (job : JobEntry) : List Paragraph :=
  createJobHeader job.role job.company job.location job.dates ::
    (if listTruthy job.achievements then bulletBlocks "experience-bullets" (job.achievements.getD []) else [])

/-- The degree-title paragraph of an education entry (bold, noviamMidBlue,
keep-with-next binding it to the institution line beneath it). -/
def degreeParagraph (edu : EducationEntry) : Paragraph :=
  { spacingBefore := some 120
    spacingAfter := some 40
    keepNext := true
    keepLines := true
    children := [Run.textRun { text := edu.degree, bold := true, size := some 20, color := some noviamMidBlue }] }

/-- The institution line of an education entry. -/
def institutionParagraph (edu : EducationEntry) : Paragraph :=
  { spacingBefore := some 0
    spacingAfter := some 40
    keepNext := strTruthy edu.details
    keepLines := true
    children := [Run.textRun { text := edu.institution ++ ", " ++ edu.location ++ " | " ++ edu.date, size := some 20, color := some darkGrey }] }

/-- The optional details paragraph of an education entry. -/
def detailsParagraph (edu : EducationEntry) : Paragraph :=
  { spacingBefore := some 0
    spacingAfter := some 80
    keepLines := true
    children := [Run.textRun { text := edu.details.getD "", size := some 20, color := some black }] }

/-- The blocks contributed by one education entry. -/
def eduBlocks (edu : EducationEntry) : List Paragraph :=
  degreeParagraph edu :: institutionParagraph edu ::
    (if strTruthy edu.details then [detailsParagraph edu] else [])

/-- The single paragraph contributed by one certification entry (the
details run is filtered out when falsy). -/
def certParagraph (cert : CertEntry) : Paragraph :=
  { spacingBefore := some 120
    spacingAfter := some 80
    keepLines := true
    children := Run.textRun { text := cert.name, bold := true, size := some 20, color := some darkGrey } ::
      (if strTruthy cert.details then
        [Run.textRun { text := " | " ++ cert.details.getD "", size := some 20, color := some darkGrey }]
      else []) }

/-- The blocks contributed by one certification entry. -/
def certBlocks (cert : CertEntry) : List Paragraph := [certParagraph cert]

/-- The header paragraph of one leadership entry. -/
def leadHeaderParagraph (lead : LeadershipEntry) : Paragraph :=
  { spacingBefore := some 120
    spacingAfter := some 60
    keepNext := true
    keepLines := true
    children := [
      Run.textRun { text := lead.role, bold := true, size := some 20, color := some noviamMidBlue },
      Run.textRun { text := " | " ++ lead.organization ++ " | " ++ lead.dates, size := some 20, color := some noviamMidBlue }] }

/-- The blocks contributed by one leadership entry; its bullets reference
the independent leadership-bullets numbering definition. -/
def leadBlocks (lead : LeadershipEntry) : List Paragraph :=
  leadHeaderParagraph lead ::
    (if listTruthy lead.achievements then bulletBlocks "leadership-bullets" (lead.achievements.getD []) else [])

/-- The Technical line of the technical-skills section. -/
def technicalParagraph (skills : TechnicalSkills) : Paragraph :=
  { spacingBefore := some 80
    spacingAfter := some 40
    keepNext := strTruthy skills.languages
    keepLines := true
    children := [
      Run.textRun { text := "Technical: ", bold := true, size := some 20, color := some darkGrey },
      Run.textRun { text := skills.technical.getD "", size := some 20, color := some black }] }

/-- The Languages line of the technical-skills section. -/
def languagesParagraph (skills : TechnicalSkills) : Paragraph :=
  { spacingBefore := some 40
    spacingAfter := some 80
    keepLines := true
    children := [
      Run.textRun { text := "Languages: ", bold := true, size := some 20, color := some darkGrey },
      Run.textRun { text := skills.languages.getD "", size := some 20, color := some black }] }

/-- The logo region of generateCV: one image paragraph when the logo asset
file exists on disk, nothing otherwise. -/
def logoChunk (hasLogo : Bool) : List Paragraph :=
  if hasLogo then [logoParagraph] else []

/-- The candidate-name region of generateCV (pushed unconditionally). -/
def nameChunk (d : ResumeDocument) : List Paragraph :=
  [nameParagraph (d.name.getD "")]

/-- The professional-summary region of generateCV. -/
def summaryChunk (d : ResumeDocument) : List Paragraph :=
  if strTruthy d.professionalSummary then
    [createSectionHeading "Professional Summary", summaryParagraph (d.professionalSummary.getD "")]
  else []

/-- The core-competencies region of generateCV. -/
def competenciesChunk (d : ResumeDocument) : List Paragraph :=
  if listTruthy d.coreCompetencies then
    [createSectionHeading "Core Competencies", competenciesParagraph (d.coreCompetencies.getD [])]
  else []

/-- The professional-experience region of generateCV. -/
def experienceChunk (d : ResumeDocument) : List Paragraph :=
  if listTruthy d.professionalExperience then
    createSectionHeading "Professional Experience" :: (d.professionalExperience.getD []).flatMap jobBlocks
  else []

/-- The merged education-and-certification region of generateCV: one
heading guarded by hasEducation or hasCertifications, the education
entries first, then the certification entries. -/
def educationCertificationChunk (d : ResumeDocument) : List Paragraph :=
  if listTruthy d.education || listTruthy d.certifications then
    createSectionHeading "Education & Certification" ::
      ((d.education.getD []).flatMap eduBlocks ++ (d.certifications.getD []).flatMap certBlocks)
  else []

/-- The leadership region of generateCV. -/
def leadershipChunk (d : ResumeDocument) : List Paragraph :=
  if listTruthy d.leadership then
    createSectionHeading "Leadership" :: (d.leadership.getD []).flatMap leadBlocks
  else []

/-- The technical-skills region of generateCV: guarded only by object
truthiness of the technicalSkills field, with each of the two lines
separately guarded by string truthiness. -/
def technicalChunk (d : ResumeDocument) : List Paragraph :=
  match d.technicalSkills with
  | none => []
  | some skills =>
    createSectionHeading "Technical Skills & Languages" ::
      ((if strTruthy skills.technical then [technicalParagraph skills] else []) ++
       (if strTruthy skills.languages then [languagesParagraph skills] else []))

/-- The ordered block list built by generateCV in generate_cv.js: each
region is appended in the fixed house order. -/
def generateCV (hasLogo : Bool) (d : ResumeDocument) : List Paragraph :=
  logoChunk hasLogo ++ nameChunk d ++ summaryChunk d ++ competenciesChunk d ++
    experienceChunk d ++ educationCertificationChunk d ++ leadershipChunk d ++ technicalChunk d

/-- Translation of the required-field check in alignCV (lib/aligner.js):
the data object is rejected when name or professionalSummary is falsy
(absent or empty), before the generator is invoked. -/
def validateCVData (d : ResumeDocument) : Except String ResumeDocument :=
  if !strTruthy d.name || !strTruthy d.professionalSummary then
    Except.error "Missing required fields: name or professionalSummary"
  else Except.ok d

/-- The composition pipeline of the service: validation in alignCV
followed by block generation in generateCV.  An error carries no blocks at
all, so a rejected input yields zero output content. -/
def composeCV (hasLogo : Bool) (d : ResumeDocument) : Except String (List Paragraph) :=
  match validateCVData d with
  | Except.error e => Except.error e
  | Except.ok valid => Except.ok (generateCV hasLogo valid)

/-- Character-class test of the sanitizing regular expression in
lib/generator.js, which keeps exactly the ASCII ranges a-z, A-Z and 0-9. -/
def isJsAlphanumeric (c : Char) : Bool :=
  (Char.ofNat 97 ≤ c && c ≤ Char.ofNat 122) || ('A' ≤ c && c ≤ 'Z') || ('0' ≤ c && c ≤ '9')

/-- Translation of the safeName computation in lib/generator.js: every
character outside the ASCII alphanumeric ranges is replaced by an
underscore. -/
def safeName (s : String) : String :=
  String.mk (s.data.map (fun c => if isJsAlphanumeric c then c else Char.ofNat 95))

/-- Translation of the output path base name built in lib/generator.js:
sanitized candidate name, the fixed marker, the generation-time timestamp
token, and the docx extension. -/
def outputFileName (candidateName : String) (timestamp : Nat) : String :=
  safeName candidateName ++ "_CV_Aligned_" ++ toString timestamp ++ ".docx"

/-- Header and footer sets of the single document section in
generate_cv.js, together with the titlePage flag that makes the first page
use the dedicated first header and footer. -/
structure SectionProperties where
  titlePage : Bool
  defaultHeader : List Paragraph
  firstHeader : List Paragraph
  defaultFooter : List Paragraph
  firstFooter : List Paragraph

/-- The running-header paragraph: the analyst label, the candidate name,
and the confidentiality text. -/
def confidentialityHeaderParagraph (name : String) : Paragraph :=
  { spacingAfter := some 360
    children := [
      Run.textRun { text := "Noviam Analyst: ", bold := true, size := some 18, color := some darkGrey },
      Run.textRun { text := name, bold := true, size := some 18, color := some darkGrey },
      Run.textRun { text := "\t" },
      Run.textRun { text := "Private and Confidential", bold := true, size := some 18, color := some darkGrey }] }

/-- The footer paragraph used for both the first and the default footer:
the copyright line and a Page-X-of-Y built from the two native live
page-number fields. -/
def footerParagraph : Paragraph :=
  { children := [
      Run.textRun { text := "© 2026, Noviam Inc. All Rights Reserved.", size := some 18, color := some darkGrey },
      Run.textRun { text := "\t" },
      Run.textRun { text := "Page ", size := some 18, color := some darkGrey },
      Run.pageFieldRun PageField.current 18 darkGrey,
      Run.textRun { text := " of ", size := some 18, color := some darkGrey },
      Run.pageFieldRun PageField.totalPages 18 darkGrey] }

/-- The section properties built by generateCV: titlePage set, an empty
first header, the confidentiality header as default, and the same footer
for the first and all following pages. -/
def documentSectionProperties (d : ResumeDocument) : SectionProperties :=
  { titlePage := true
    defaultHeader := [confidentialityHeaderParagraph (d.name.getD "")]
    firstHeader := []
    defaultFooter := [footerParagraph]
    firstFooter := [footerParagraph] }

/-- Header shown on a given page (pages counted from 1).  This encodes the
docx titlePage semantics the generator relies on: with titlePage set, page
one uses the first header and every later page the default header. -/
def headerForPage (s : SectionProperties) (page : Nat) : List Paragraph :=
  if s.titlePage && page == 1 then s.firstHeader else s.defaultHeader

/-- Footer shown on a given page, under the same titlePage semantics. -/
def footerForPage (s : SectionProperties) (page : Nat) : List Paragraph :=
  if s.titlePage && page == 1 then s.firstFooter else s.defaultFooter

/-- A paragraph is a section heading exactly when it carries the colored
bottom border rule, which only createSectionHeading attaches. -/
def isSectionHeading (p : Paragraph) : Bool := p.bottomBorder

/-- The title text of a section-heading paragraph, none for every body
paragraph. -/
def headingTitle (p : Paragraph) : Option String :=
  if p.bottomBorder then
    match p.children with
    | Run.textRun props :: _ => some props.text
    | _ => none
  else none

/-- The section-heading titles occurring in a block list, in order. -/
def headings (blocks : List Paragraph) : List String := blocks.filterMap headingTitle

/-- Decides that no section heading in the block list is dangling: every
heading paragraph is immediately followed by a non-heading body block (so
the last block in particular is never a heading). -/
def noDanglingHeading : List Paragraph → Bool
  | [] => true
  | [p] => !isSectionHeading p
  | p :: q :: rest => (!isSectionHeading p || !isSectionHeading q) && noDanglingHeading (q :: rest)

/-- The concatenated visible text of a paragraph (image and page-number
runs contribute no text). -/
def paragraphText (p : Paragraph) : String :=
  String.join (p.children.map (fun r =>
    match r with
    | Run.textRun props => props.text
    | Run.imageRun _ _ => ""
    | Run.pageFieldRun _ _ _ => ""))

/-- Truthiness of an optional string unfolds to existence of a non-empty
string value. -/
theorem strTruthy_eq_true_iff (o : Option String) :
    strTruthy o = true ↔ ∃ s, o = some s ∧ s ≠ "" := by
  cases o <;> simp [strTruthy]

/-- Truthiness of an optional array unfolds to existence of a non-empty
list value. -/
theorem listTruthy_eq_true_iff {α : Type} (o : Option (List α)) :
    listTruthy o = true ↔ ∃ l, o = some l ∧ l ≠ [] := by
  cases o <;> simp [listTruthy, List.length_pos]

/-- A section heading paragraph carries the border rule. -/
theorem headingTitle_createSectionHeading (t : String) :
    headingTitle (createSectionHeading t) = some (jsToUpperCase t) := rfl

/-- A paragraph without the border rule has no heading title. -/
theorem headingTitle_eq_none (p : Paragraph) (h : p.bottomBorder = false) :
    headingTitle p = none := by
  simp [headingTitle, h]

/-- Heading titles distribute over concatenation of block lists. -/
theorem headings_append (a b : List Paragraph) :
    headings (a ++ b) = headings a ++ headings b :=
  List.filterMap_append a b headingTitle

/-- A block list consisting only of borderless paragraphs contributes no
heading titles. -/
theorem headings_eq_nil (l : List Paragraph) (h : ∀ p ∈ l, p.bottomBorder = false) :
    headings l = [] := by
  induction l with
  | nil => rfl
  | cons p rest ih =>
    have hp := headingTitle_eq_none p (h p (by simp))
    have hr := ih (fun q hq => h q (by simp [hq]))
    simp only [headings] at hr ⊢
    simp [List.filterMap_cons, hp, hr]

/-- Every bullet paragraph is borderless. -/
theorem bottomBorder_of_mem_bulletBlocks (reference : String) (achievements : List String)
    (p : Paragraph) (h : p ∈ bulletBlocks reference achievements) : p.bottomBorder = false := by
  simp [bulletBlocks] at h
  obtain ⟨a, b, _, hp⟩ := h
  rw [← hp]
  rfl

/-- Every block contributed by a job entry is borderless. -/
theorem bottomBorder_of_mem_jobBlocks (job : JobEntry) (p : Paragraph)
    (h : p ∈ jobBlocks job) : p.bottomBorder = false := by
  simp [jobBlocks] at h
  rcases h with h | ⟨-, h⟩
  · rw [h]; rfl
  · exact bottomBorder_of_mem_bulletBlocks _ _ p h

/-- Every block contributed by an education entry is borderless. -/
theorem bottomBorder_of_mem_eduBlocks (edu : EducationEntry) (p : Paragraph)
    (h : p ∈ eduBlocks edu) : p.bottomBorder = false := by
  simp [eduBlocks] at h
  rcases h with h | h | ⟨-, h⟩
  · rw [h]; rfl
  · rw [h]; rfl
  · rw [h]; rfl

/-- Every block contributed by a certification entry is borderless. -/
theorem bottomBorder_of_mem_certBlocks (cert : CertEntry) (p : Paragraph)
    (h : p ∈ certBlocks cert) : p.bottomBorder = false := by
  simp [certBlocks] at h
  rw [h]; rfl

/-- Every block contributed by a leadership entry is borderless. -/
theorem bottomBorder_of_mem_leadBlocks (lead : LeadershipEntry) (p : Paragraph)
    (h : p ∈ leadBlocks lead) : p.bottomBorder = false := by
  simp [leadBlocks] at h
  rcases h with h | ⟨-, h⟩
  · rw [h]; rfl
  · exact bottomBorder_of_mem_bulletBlocks _ _ p h

/-- Every block of the technical-skills body is borderless. -/
theorem bottomBorder_of_mem_technicalBody (skills : TechnicalSkills) (p : Paragraph)
    (h : p ∈ (if strTruthy skills.technical then [technicalParagraph skills] else []) ++
         (if strTruthy skills.languages then [languagesParagraph skills] else [])) :
    p.bottomBorder = false := by
  simp at h
  rcases h with ⟨-, h⟩ | ⟨-, h⟩
  · rw [h]; rfl
  · rw [h]; rfl

/-- The logo region contributes no heading title. -/
theorem headings_logoChunk (hasLogo : Bool) : headings (logoChunk hasLogo) = [] := by
  cases hasLogo <;> rfl

/-- The name region contributes no heading title. -/
theorem headings_nameChunk (d : ResumeDocument) : headings (nameChunk d) = [] := rfl

/-- Heading titles of the professional-summary region. -/
theorem headings_summaryChunk (d : ResumeDocument) :
    headings (summaryChunk d) =
      if strTruthy d.professionalSummary then ["PROFESSIONAL SUMMARY"] else [] := by
  unfold summaryChunk
  split <;> rfl

/-- Heading titles of the core-competencies region. -/
theorem headings_competenciesChunk (d : ResumeDocument) :
    headings (competenciesChunk d) =
      if listTruthy d.coreCompetencies then ["CORE COMPETENCIES"] else [] := by
  unfold competenciesChunk
  split <;> rfl

/-- Heading titles of the professional-experience region. -/
theorem headings_experienceChunk (d : ResumeDocument) :
    headings (experienceChunk d) =
      if listTruthy d.professionalExperience then ["PROFESSIONAL EXPERIENCE"] else [] := by
  unfold experienceChunk
  split
  · have hbody : headings ((d.professionalExperience.getD []).flatMap jobBlocks) = [] := by
      refine headings_eq_nil _ (fun p hp => ?_)
      obtain ⟨j, _, hj⟩ := List.mem_flatMap.mp hp
      exact bottomBorder_of_mem_jobBlocks j p hj
    have := headings_append [createSectionHeading "Professional Experience"]
      ((d.professionalExperience.getD []).flatMap jobBlocks)
    simp only [List.singleton_append] at this
    rw [this, hbody]
    rfl
  · rfl

/-- Heading titles of the merged education-and-certification region. -/
theorem headings_educationCertificationChunk (d : ResumeDocument) :
    headings (educationCertificationChunk d) =
      if listTruthy d.education || listTruthy d.certifications then
        ["EDUCATION & CERTIFICATION"]
      else [] := by
  unfold educationCertificationChunk
  split
  · have hbody : headings ((d.education.getD []).flatMap eduBlocks ++
        (d.certifications.getD []).flatMap certBlocks) = [] := by
      refine headings_eq_nil _ (fun p hp => ?_)
      rcases List.mem_append.mp hp with hp | hp
      · obtain ⟨e, _, he⟩ := List.mem_flatMap.mp hp
        exact bottomBorder_of_mem_eduBlocks e p he
      · obtain ⟨c, _, hc⟩ := List.mem_flatMap.mp hp
        exact bottomBorder_of_mem_certBlocks c p hc
    have := headings_append [createSectionHeading "Education & Certification"]
      ((d.education.getD []).flatMap eduBlocks ++ (d.certifications.getD []).flatMap certBlocks)
    simp only [List.singleton_append] at this
    rw [this, hbody]
    rfl
  · rfl

/-- Heading titles of the leadership region. -/
theorem headings_leadershipChunk (d : ResumeDocument) :
    headings (leadershipChunk d) =
      if listTruthy d.leadership then ["LEADERSHIP"] else [] := by
  unfold leadershipChunk
  split
  · have hbody : headings ((d.leadership.getD []).flatMap leadBlocks) = [] := by
      refine headings_eq_nil _ (fun p hp => ?_)
      obtain ⟨l, _, hl⟩ := List.mem_flatMap.mp hp
      exact bottomBorder_of_mem_leadBlocks l p hl
    have := headings_append [createSectionHeading "Leadership"]
      ((d.leadership.getD []).flatMap leadBlocks)
    simp only [List.singleton_append] at this
    rw [this, hbody]
    rfl
  · rfl

/-- Heading titles of the technical-skills region. -/
theorem headings_technicalChunk (d : ResumeDocument) :
    headings (technicalChunk d) =
      if d.technicalSkills.isSome then ["TECHNICAL SKILLS & LANGUAGES"] else [] := by
  unfold technicalChunk
  cases hts : d.technicalSkills with
  | none => rfl
  | some skills =>
    have hbody : headings ((if strTruthy skills.technical then [technicalParagraph skills] else []) ++
        (if strTruthy skills.languages then [languagesParagraph skills] else [])) = [] :=
      headings_eq_nil _ (fun p hp => bottomBorder_of_mem_technicalBody skills p hp)
    have := headings_append [createSectionHeading "Technical Skills & Languages"]
      ((if strTruthy skills.technical then [technicalParagraph skills] else []) ++
       (if strTruthy skills.languages then [languagesParagraph skills] else []))
    simp only [List.singleton_append] at this
    rw [this, hbody]
    rfl

/-- Decomposition of the heading titles of the full generated block list
into the guarded titles of the successive regions. -/
theorem headings_generateCV (hasLogo : Bool) (d : ResumeDocument) :
    headings (generateCV hasLogo d) =
      (if strTruthy d.professionalSummary then ["PROFESSIONAL SUMMARY"] else []) ++
      (if listTruthy d.coreCompetencies then ["CORE COMPETENCIES"] else []) ++
      (if listTruthy d.professionalExperience then ["PROFESSIONAL EXPERIENCE"] else []) ++
      (if listTruthy d.education || listTruthy d.certifications then ["EDUCATION & CERTIFICATION"] else []) ++
      (if listTruthy d.leadership then ["LEADERSHIP"] else []) ++
      (if d.technicalSkills.isSome then ["TECHNICAL SKILLS & LANGUAGES"] else []) := by
  unfold generateCV
  rw [headings_append, headings_append, headings_append, headings_append, headings_append,
    headings_append, headings_append, headings_logoChunk, headings_nameChunk,
    headings_summaryChunk, headings_competenciesChunk, headings_experienceChunk,
    headings_educationCertificationChunk, headings_leadershipChunk, headings_technicalChunk]
  simp

/-- Concatenation of two block lists without dangling headings has no
dangling heading: a heading is never last in such a list, so the boundary
is safe. -/
theorem noDanglingHeading_append : ∀ (a b : List Paragraph),
    noDanglingHeading a = true → noDanglingHeading b = true →
    noDanglingHeading (a ++ b) = true
  | [], _, _, hb => hb
  | [p], b, ha, hb => by
    cases b with
    | nil => exact ha
    | cons q rest =>
      have hp : isSectionHeading p = false := by simpa [noDanglingHeading] using ha
      simp [noDanglingHeading, hp, hb]
  | p :: q :: rest, b, ha, hb => by
    have h1 : (!isSectionHeading p || !isSectionHeading q) = true ∧
        noDanglingHeading (q :: rest) = true := by
      simpa [noDanglingHeading, Bool.and_eq_true] using ha
    have ih := noDanglingHeading_append (q :: rest) b h1.2 hb
    show noDanglingHeading (p :: q :: (rest ++ b)) = true
    rw [noDanglingHeading, Bool.and_eq_true]
    exact ⟨h1.1, ih⟩

/-- A block list made only of body paragraphs has no dangling heading. -/
theorem noDanglingHeading_of_borderless : ∀ (l : List Paragraph),
    (∀ p ∈ l, isSectionHeading p = false) → noDanglingHeading l = true
  | [], _ => rfl
  | [p], h => by simp [noDanglingHeading, h p (by simp)]
  | p :: q :: rest, h => by
    have hrec := noDanglingHeading_of_borderless (q :: rest)
      (fun r hr => h r (by simp at hr ⊢; tauto))
    simp [noDanglingHeading, h p (by simp), hrec]

/-- A heading followed by a non-empty run of body paragraphs is not
dangling. -/
theorem noDanglingHeading_heading_cons (t : String) (body : List Paragraph)
    (hne : body ≠ []) (hb : ∀ p ∈ body, isSectionHeading p = false) :
    noDanglingHeading (createSectionHeading t :: body) = true := by
  cases body with
  | nil => exact absurd rfl hne
  | cons q rest =>
    have hq : isSectionHeading q = false := hb q (by simp)
    have hrec := noDanglingHeading_of_borderless (q :: rest) hb
    simp [noDanglingHeading, hq, hrec]

/-- A non-empty job list contributes a non-empty run of blocks. -/
theorem flatMap_jobBlocks_ne_nil (jobs : List JobEntry) (h : jobs ≠ []) :
    jobs.flatMap jobBlocks ≠ [] := by
  cases jobs with
  | nil => exact absurd rfl h
  | cons j rest => simp [jobBlocks]

/-- A non-empty leadership list contributes a non-empty run of blocks. -/
theorem flatMap_leadBlocks_ne_nil (leads : List LeadershipEntry) (h : leads ≠ []) :
    leads.flatMap leadBlocks ≠ [] := by
  cases leads with
  | nil => exact absurd rfl h
  | cons l rest => simp [leadBlocks]

/-- The merged education-and-certification body is non-empty whenever one
of the two groups is. -/
theorem eduCertBody_ne_nil (edus : List EducationEntry) (certs : List CertEntry)
    (h : edus ≠ [] ∨ certs ≠ []) :
    edus.flatMap eduBlocks ++ certs.flatMap certBlocks ≠ [] := by
  rcases h with h | h
  · cases edus with
    | nil => exact absurd rfl h
    | cons e rest => simp [eduBlocks]
  · cases certs with
    | nil => exact absurd rfl h
    | cons c rest => simp [certBlocks]

/-- The logo region has no dangling heading. -/
theorem noDangling_logoChunk (hasLogo : Bool) :
    noDanglingHeading (logoChunk hasLogo) = true := by
  cases hasLogo <;> rfl

/-- The name region has no dangling heading. -/
theorem noDangling_nameChunk (d : ResumeDocument) :
    noDanglingHeading (nameChunk d) = true := rfl

/-- The professional-summary region has no dangling heading. -/
theorem noDangling_summaryChunk (d : ResumeDocument) :
    noDanglingHeading (summaryChunk d) = true := by
  unfold summaryChunk
  split <;> rfl

/-- The core-competencies region has no dangling heading. -/
theorem noDangling_competenciesChunk (d : ResumeDocument) :
    noDanglingHeading (competenciesChunk d) = true := by
  unfold competenciesChunk
  split <;> rfl

/-- The professional-experience region has no dangling heading. -/
theorem noDangling_experienceChunk (d : ResumeDocument) :
    noDanglingHeading (experienceChunk d) = true := by
  unfold experienceChunk
  split
  · rename_i hg
    obtain ⟨jobs, hjobs, hne⟩ := (listTruthy_eq_true_iff _).mp hg
    refine noDanglingHeading_heading_cons _ _ ?_ ?_
    · rw [hjobs]
      exact flatMap_jobBlocks_ne_nil jobs hne
    · intro p hp
      obtain ⟨j, _, hj⟩ := List.mem_flatMap.mp hp
      simpa [isSectionHeading] using bottomBorder_of_mem_jobBlocks j p hj
  · rfl

/-- The merged education-and-certification region has no dangling
heading. -/
theorem noDangling_educationCertificationChunk (d : ResumeDocument) :
    noDanglingHeading (educationCertificationChunk d) = true := by
  unfold educationCertificationChunk
  split
  · rename_i hg
    rw [Bool.or_eq_true] at hg
    refine noDanglingHeading_heading_cons _ _ ?_ ?_
    · refine eduCertBody_ne_nil _ _ ?_
      rcases hg with hg | hg
      · obtain ⟨l, hl, hne⟩ := (listTruthy_eq_true_iff _).mp hg
        exact Or.inl (by rw [hl]; simpa using hne)
      · obtain ⟨l, hl, hne⟩ := (listTruthy_eq_true_iff _).mp hg
        exact Or.inr (by rw [hl]; simpa using hne)
    · intro p hp
      rcases List.mem_append.mp hp with hp | hp
      · obtain ⟨e, _, he⟩ := List.mem_flatMap.mp hp
        simpa [isSectionHeading] using bottomBorder_of_mem_eduBlocks e p he
      · obtain ⟨c, _, hc⟩ := List.mem_flatMap.mp hp
        simpa [isSectionHeading] using bottomBorder_of_mem_certBlocks c p hc
  · rfl

/-- The leadership region has no dangling heading. -/
theorem noDangling_leadershipChunk (d : ResumeDocument) :
    noDanglingHeading (leadershipChunk d) = true := by
  unfold leadershipChunk
  split
  · rename_i hg
    obtain ⟨leads, hleads, hne⟩ := (listTruthy_eq_true_iff _).mp hg
    refine noDanglingHeading_heading_cons _ _ ?_ ?_
    · rw [hleads]
      exact flatMap_leadBlocks_ne_nil leads hne
    · intro p hp
      obtain ⟨l, _, hl⟩ := List.mem_flatMap.mp hp
      simpa [isSectionHeading] using bottomBorder_of_mem_leadBlocks l p hl
  · rfl

/-- The technical-skills region has no dangling heading provided that a
present technicalSkills object has at least one truthy line. -/
theorem noDangling_technicalChunk (d : ResumeDocument)
    (hts : ∀ skills, d.technicalSkills = some skills →
      strTruthy skills.technical = true ∨ strTruthy skills.languages = true) :
    noDanglingHeading (technicalChunk d) = true := by
  unfold technicalChunk
  cases h : d.technicalSkills with
  | none => rfl
  | some skills =>
    refine noDanglingHeading_heading_cons _ _ ?_ ?_
    · rcases hts skills h with h1 | h1 <;> simp [h1]
    · exact fun p hp => by
        simpa [isSectionHeading] using bottomBorder_of_mem_technicalBody skills p hp

/-- C1: when name or professionalSummary is missing or empty the pipeline
rejects the document with the validation error and produces no block at
all (the rendering stage is never reached); when both are present and
non-empty, composition succeeds whatever the other fields are, so the
absence of any optional field never causes an error. -/
theorem composeCV_requires_name_and_summary (hasLogo : Bool) (d : ResumeDocument) :
    (strTruthy d.name = false ∨ strTruthy d.professionalSummary = false →
      composeCV hasLogo d = Except.error "Missing required fields: name or professionalSummary")
    ∧ (strTruthy d.name = true → strTruthy d.professionalSummary = true →
      composeCV hasLogo d = Except.ok (generateCV hasLogo d)) := by
  constructor
  · intro h
    rcases h with h | h <;> simp [composeCV, validateCVData, h]
  · intro h1 h2
    simp [composeCV, validateCVData, h1, h2]

/-- A document with no name, used to exercise the validation failure. -/
def c1BadDoc : ResumeDocument :=
  { professionalSummary := some "Experienced analyst." }

/-- A document with only the two required fields present. -/
def c1GoodDoc : ResumeDocument :=
  { name := some "Avery Quinn", professionalSummary := some "Experienced analyst." }

/-- Witness for C1 at concrete inputs: a document missing the name is
rejected, and a document with both required fields present composes. -/
theorem composeCV_requires_name_and_summary_witness :
    composeCV false c1BadDoc = Except.error "Missing required fields: name or professionalSummary"
    ∧ composeCV false c1GoodDoc = Except.ok (generateCV false c1GoodDoc) :=
  ⟨(composeCV_requires_name_and_summary false c1BadDoc).1 (Or.inl (by decide)),
   (composeCV_requires_name_and_summary false c1GoodDoc).2 (by decide) (by decide)⟩

/-- A document whose technicalSkills object is present but has both lines
absent, mirroring the JSON input technicalSkills set to the empty object. -/
def c2EmptySkillsDoc : ResumeDocument :=
  { name := some "Ada Analyst"
    professionalSummary := some "Summary."
    technicalSkills := some { technical := none, languages := none } }

/-- C2 counterexample: a present-but-empty technicalSkills object makes
generateCV emit the Technical Skills and Languages section heading with no
body block after it, so the block list has a dangling heading and the
claimed invariant fails on this input. -/
theorem dangling_heading_counterexample :
    noDanglingHeading (generateCV false c2EmptySkillsDoc) = false
    ∧ "TECHNICAL SKILLS & LANGUAGES" ∈ headings (generateCV false c2EmptySkillsDoc) := by
  constructor
  · decide
  · decide

/-- C2 amended: every sequence-backed section omits both heading and body
when its backing field is absent or empty, and the generated block list
never contains a dangling section heading, provided that a present
technicalSkills object has at least one of its two lines non-empty; a
present technicalSkills object with both lines absent or empty instead
yields its heading with no body beneath it. -/
theorem section_omission_amended (hasLogo : Bool) (d : ResumeDocument)
    (hts : ∀ skills, d.technicalSkills = some skills →
      strTruthy skills.technical = true ∨ strTruthy skills.languages = true) :
    noDanglingHeading (generateCV hasLogo d) = true
    ∧ (strTruthy d.professionalSummary = false → summaryChunk d = [])
    ∧ (listTruthy d.coreCompetencies = false → competenciesChunk d = [])
    ∧ (listTruthy d.professionalExperience = false → experienceChunk d = [])
    ∧ (listTruthy d.education = false → listTruthy d.certifications = false →
        educationCertificationChunk d = [])
    ∧ (listTruthy d.leadership = false → leadershipChunk d = [])
    ∧ (d.technicalSkills = none → technicalChunk d = []) := by
  refine ⟨?_, ?_, ?_, ?_, ?_, ?_, ?_⟩
  · unfold generateCV
    refine noDanglingHeading_append _ _ ?_ (noDangling_technicalChunk d hts)
    refine noDanglingHeading_append _ _ ?_ (noDangling_leadershipChunk d)
    refine noDanglingHeading_append _ _ ?_ (noDangling_educationCertificationChunk d)
    refine noDanglingHeading_append _ _ ?_ (noDangling_experienceChunk d)
    refine noDanglingHeading_append _ _ ?_ (noDangling_competenciesChunk d)
    refine noDanglingHeading_append _ _ ?_ (noDangling_summaryChunk d)
    exact noDanglingHeading_append _ _ (noDangling_logoChunk hasLogo) (noDangling_nameChunk d)
  · intro h; simp [summaryChunk, h]
  · intro h; simp [competenciesChunk, h]
  · intro h; simp [experienceChunk, h]
  · intro h1 h2; simp [educationCertificationChunk, h1, h2]
  · intro h; simp [leadershipChunk, h]
  · intro h; simp [technicalChunk, h]

/-- A document whose technicalSkills object has a truthy Technical line,
used to witness the amended C2. -/
def c2WitnessDoc : ResumeDocument :=
  { name := some "Billie Wren"
    professionalSummary := some "Summary text."
    technicalSkills := some { technical := some "Excel", languages := none } }

/-- Witness for the amended C2 at a concrete input. -/
theorem section_omission_amended_witness :
    noDanglingHeading (generateCV false c2WitnessDoc) = true :=
  (section_omission_amended false c2WitnessDoc (by
    intro skills h
    cases h
    exact Or.inl (by decide))).1

/-- C3: with only the two required fields present, composition succeeds
and the block list is exactly the optional logo, the name block and the
Professional Summary heading plus body, with no other section heading. -/
theorem minimal_document_blocks (hasLogo : Bool) (d : ResumeDocument) (n s : String)
    (hn : d.name = some n) (hn2 : n ≠ "")
    (hs : d.professionalSummary = some s) (hs2 : s ≠ "")
    (hcc : d.coreCompetencies = none) (hpe : d.professionalExperience = none)
    (hed : d.education = none) (hcert : d.certifications = none)
    (hl : d.leadership = none) (hts : d.technicalSkills = none) :
    composeCV hasLogo d =
      Except.ok (logoChunk hasLogo ++
        [nameParagraph n, createSectionHeading "Professional Summary", summaryParagraph s])
    ∧ headings (generateCV hasLogo d) = ["PROFESSIONAL SUMMARY"] := by
  have htn : strTruthy d.name = true := by rw [hn]; simp [strTruthy, hn2]
  have hts2 : strTruthy d.professionalSummary = true := by rw [hs]; simp [strTruthy, hs2]
  have hss : strTruthy (some s) = true := by simp [strTruthy, hs2]
  have hgen : generateCV hasLogo d =
      logoChunk hasLogo ++
        [nameParagraph n, createSectionHeading "Professional Summary", summaryParagraph s] := by
    simp [generateCV, nameChunk, summaryChunk, competenciesChunk, experienceChunk,
      educationCertificationChunk, leadershipChunk, technicalChunk, listTruthy,
      hn, hs, hcc, hpe, hed, hcert, hl, hts, hss]
  constructor
  · simp [composeCV, validateCVData, htn, hts2, hgen]
  · rw [headings_generateCV]
    simp [hcc, hpe, hed, hcert, hl, hts, hts2, listTruthy]

/-- A document carrying only the required fields. -/
def c3Doc : ResumeDocument :=
  { name := some "Casey Lee", professionalSummary := some "A summary." }

/-- Witness for C3 at a concrete input. -/
theorem minimal_document_blocks_witness :
    composeCV false c3Doc =
      Except.ok [nameParagraph "Casey Lee", createSectionHeading "Professional Summary",
        summaryParagraph "A summary."]
    ∧ headings (generateCV false c3Doc) = ["PROFESSIONAL SUMMARY"] := by
  have h := minimal_document_blocks false c3Doc "Casey Lee" "A summary."
    rfl (by decide) rfl (by decide) rfl rfl rfl rfl rfl rfl
  exact ⟨by simpa [logoChunk] using h.1, h.2⟩

/-- C4: the merged Education and Certification heading appears in the
output exactly when at least one of the education or certifications
sequences is present and non-empty. -/
theorem education_certification_heading_iff (hasLogo : Bool) (d : ResumeDocument) :
    "EDUCATION & CERTIFICATION" ∈ headings (generateCV hasLogo d) ↔
      (listTruthy d.education || listTruthy d.certifications) = true := by
  have mem_ite : ∀ (c : Bool) (a x : String),
      (x ∈ if c then [a] else ([] : List String)) ↔ (c = true ∧ x = a) := by
    intro c a x
    cases c <;> simp
  rw [headings_generateCV]
  simp [List.mem_append, mem_ite]

/-- C5: a present non-empty coreCompetencies sequence yields exactly one
heading and one body paragraph whose text is the elements joined in input
order by the fixed delimiter. -/
theorem core_competencies_joined (hasLogo : Bool) (d : ResumeDocument) (items : List String)
    (h : d.coreCompetencies = some items) (hne : items ≠ []) :
    generateCV hasLogo d =
      logoChunk hasLogo ++ nameChunk d ++ summaryChunk d ++
        [createSectionHeading "Core Competencies", competenciesParagraph items] ++
        experienceChunk d ++ educationCertificationChunk d ++ leadershipChunk d ++
        technicalChunk d
    ∧ paragraphText (competenciesParagraph items) = String.intercalate "  •  " items := by
  have hcc : competenciesChunk d =
      [createSectionHeading "Core Competencies", competenciesParagraph items] := by
    simp [competenciesChunk, h, listTruthy, List.length_pos, hne]
  constructor
  · rw [generateCV, hcc]
  · rfl

/-- A document with an unsorted coreCompetencies sequence. -/
def c5Doc : ResumeDocument :=
  { name := some "Drew Fox"
    professionalSummary := some "S."
    coreCompetencies := some ["B", "A", "C"] }

/-- Witness for C5 at the concrete sequence from the specification: the
joined line preserves input order and uses the fixed delimiter. -/
theorem core_competencies_joined_witness :
    paragraphText (competenciesParagraph ["B", "A", "C"]) = "B  •  A  •  C"
    ∧ generateCV false c5Doc =
        logoChunk false ++ nameChunk c5Doc ++ summaryChunk c5Doc ++
          [createSectionHeading "Core Competencies", competenciesParagraph ["B", "A", "C"]] ++
          experienceChunk c5Doc ++ educationCertificationChunk c5Doc ++ leadershipChunk c5Doc ++
          technicalChunk c5Doc := by
  have h := core_competencies_joined false c5Doc ["B", "A", "C"] rfl (by decide)
  exact ⟨h.2.trans (by decide), h.1⟩

/-- C6: a job entry whose achievements array is absent or empty
contributes exactly its header paragraph and no bullet block, so the next
emitted block after its header is the next entry header or the next
section. -/
theorem empty_achievements_job_header_only (hasLogo : Bool) (d : ResumeDocument)
    (jobs : List JobEntry) (hjobs : d.professionalExperience = some jobs) (hne : jobs ≠ []) :
    generateCV hasLogo d =
      logoChunk hasLogo ++ nameChunk d ++ summaryChunk d ++ competenciesChunk d ++
        (createSectionHeading "Professional Experience" :: jobs.flatMap jobBlocks) ++
        educationCertificationChunk d ++ leadershipChunk d ++ technicalChunk d
    ∧ ∀ job ∈ jobs, listTruthy job.achievements = false →
        jobBlocks job = [createJobHeader job.role job.company job.location job.dates] := by
  constructor
  · have hexp : experienceChunk d =
        createSectionHeading "Professional Experience" :: jobs.flatMap jobBlocks := by
      simp [experienceChunk, hjobs, listTruthy, List.length_pos, hne]
    rw [generateCV, hexp]
  · intro job _ hach
    simp [jobBlocks, hach]

/-- A job entry with a present but empty achievements array. -/
def c6Job : JobEntry :=
  { role := "Analyst", company := "Noviam", location := "London",
    dates := "2023 - 2024", achievements := some [] }

/-- A document containing only the empty-achievements job entry. -/
def c6Doc : ResumeDocument :=
  { name := some "Emery Hale"
    professionalSummary := some "S."
    professionalExperience := some [c6Job] }

/-- Witness for C6 at a concrete input. -/
theorem empty_achievements_job_header_only_witness :
    jobBlocks c6Job = [createJobHeader "Analyst" "Noviam" "London" "2023 - 2024"]
    ∧ generateCV false c6Doc =
        logoChunk false ++ nameChunk c6Doc ++ summaryChunk c6Doc ++ competenciesChunk c6Doc ++
          (createSectionHeading "Professional Experience" :: [c6Job].flatMap jobBlocks) ++
          educationCertificationChunk c6Doc ++ leadershipChunk c6Doc ++ technicalChunk c6Doc := by
  have h := empty_achievements_job_header_only false c6Doc [c6Job] rfl (by decide)
  exact ⟨h.2 c6Job (by simp) (by decide), h.1⟩

/-- The name Jane OBrien-Smith with its space, apostrophe and hyphen
written as character codes. -/
def janeName : String :=
  String.mk (['J', 'a', 'n', 'e'] ++ [Char.ofNat 32, 'O', Char.ofNat 39] ++
    ['B', 'r', 'i', 'e', 'n', '-', 'S', 'm', 'i', 't', 'h'])

/-- C7: the derived output filename is the sanitized candidate name
followed by the fixed marker and the generation-time timestamp token;
sanitization maps every character outside the ASCII alphanumeric ranges to
an underscore, so the output base contains only alphanumerics and
underscores, and the specification example evaluates as claimed. -/
theorem output_filename_sanitization (candidateName : String) (timestamp : Nat) :
    outputFileName candidateName timestamp =
      safeName candidateName ++ "_CV_Aligned_" ++ toString timestamp ++ ".docx"
    ∧ (safeName candidateName).data =
        candidateName.data.map (fun c => if isJsAlphanumeric c then c else Char.ofNat 95)
    ∧ (∀ c ∈ (safeName candidateName).data, isJsAlphanumeric c = true ∨ c = Char.ofNat 95)
    ∧ safeName janeName = "Jane_O_Brien_Smith" := by
  refine ⟨rfl, rfl, ?_, by decide⟩
  intro c hc
  simp [safeName] at hc
  obtain ⟨c0, -, hc0⟩ := hc
  by_cases h : isJsAlphanumeric c0 = true
  · rw [if_pos h] at hc0
    subst hc0
    exact Or.inl h
  · rw [if_neg h] at hc0
    subst hc0
    exact Or.inr rfl

/-- A job entry with two achievements, used to compare the keep-with-next
flags of its bullets against the claimed ones. -/
def c8Job : JobEntry :=
  { role := "Consultant", company := "Acme", location := "Berlin",
    dates := "2022", achievements := some ["grew revenue", "cut costs"] }

/-- C8 counterexample: for a two-bullet achievements group the claim
predicts keep flags header true, first bullet (the one before the final
one) false, final bullet true, that is the list [true, false, true]; the
code instead attaches the hint to every bullet except the final one,
giving [true, true, false]. -/
theorem bullet_keep_hint_counterexample :
    (jobBlocks c8Job).map Paragraph.keepNext = [true, true, false]
    ∧ (jobBlocks c8Job).map Paragraph.keepNext ≠ [true, false, true] := by
  constructor <;> decide

/-- C8 amended: the job header always carries the keep-with-next hint,
each bullet carries it except the final bullet of its group, and a degree
title paragraph carries the hint binding it to the institution line. -/
theorem bullet_keep_hint_amended (job : JobEntry) (achs : List String)
    (h : job.achievements = some achs) (hne : achs ≠ []) :
    jobBlocks job =
      createJobHeader job.role job.company job.location job.dates ::
        bulletBlocks "experience-bullets" achs
    ∧ (createJobHeader job.role job.company job.location job.dates).keepNext = true
    ∧ (bulletBlocks "experience-bullets" achs).map Paragraph.keepNext =
        (List.range achs.length).map (fun i => !(i == achs.length - 1))
    ∧ ∀ edu : EducationEntry, (degreeParagraph edu).keepNext = true := by
  refine ⟨?_, rfl, ?_, fun edu => rfl⟩
  · simp [jobBlocks, h, listTruthy, List.length_pos, hne]
  · rw [bulletBlocks, List.map_map]
    have hcomp : (Paragraph.keepNext ∘ fun ia : Nat × String =>
        createBulletPoint ia.2 "experience-bullets" (!(ia.1 == achs.length - 1))) =
        (fun i : Nat => !(i == achs.length - 1)) ∘ Prod.fst := rfl
    rw [hcomp, List.enum_eq_zip_range, ← List.map_map]
    rw [List.map_fst_zip _ _ (by simp)]

/-- A job entry with three achievements, used to witness the amended C8. -/
def c8WitnessJob : JobEntry :=
  { role := "Lead", company := "Org", location := "Paris",
    dates := "2021", achievements := some ["alpha", "beta", "gamma"] }

/-- Witness for the amended C8 at a concrete input: flags are true on all
bullets except the last. -/
theorem bullet_keep_hint_amended_witness :
    jobBlocks c8WitnessJob =
      createJobHeader "Lead" "Org" "Paris" "2021" ::
        bulletBlocks "experience-bullets" ["alpha", "beta", "gamma"]
    ∧ (bulletBlocks "experience-bullets" ["alpha", "beta", "gamma"]).map Paragraph.keepNext =
        [true, true, false] := by
  have h := bullet_keep_hint_amended c8WitnessJob ["alpha", "beta", "gamma"] rfl (by decide)
  exact ⟨h.1, h.2.2.1.trans (by decide)⟩

/-- C9: the running header is empty on page one and on every later page
carries the confidentiality text and the candidate name; the footer is the
same on every page including the first and carries the copyright line plus
the two native live page-number fields. -/
theorem header_footer_pages (d : ResumeDocument) (page : Nat) (hpage : 2 ≤ page) :
    headerForPage (documentSectionProperties d) 1 = []
    ∧ headerForPage (documentSectionProperties d) page =
        [confidentialityHeaderParagraph (d.name.getD "")]
    ∧ Run.textRun { text := "Private and Confidential", bold := true, size := some 18, color := some darkGrey } ∈ (confidentialityHeaderParagraph (d.name.getD "")).children
    ∧ Run.textRun { text := d.name.getD "", bold := true, size := some 18, color := some darkGrey } ∈ (confidentialityHeaderParagraph (d.name.getD "")).children
    ∧ (∀ q : Nat, footerForPage (documentSectionProperties d) q = [footerParagraph])
    ∧ Run.textRun { text := "© 2026, Noviam Inc. All Rights Reserved.", size := some 18, color := some darkGrey } ∈ footerParagraph.children
    ∧ Run.pageFieldRun PageField.current 18 darkGrey ∈ footerParagraph.children
    ∧ Run.pageFieldRun PageField.totalPages 18 darkGrey ∈ footerParagraph.children := by
  have hne : page ≠ 1 := by omega
  refine ⟨rfl, ?_, ?_, ?_, ?_, ?_, ?_, ?_⟩
  · simp [headerForPage, documentSectionProperties, hne]
  · simp [confidentialityHeaderParagraph]
  · simp [confidentialityHeaderParagraph]
  · intro q
    unfold footerForPage documentSectionProperties
    split <;> rfl
  · simp [footerParagraph]
  · simp [footerParagraph]
  · simp [footerParagraph]

/-- A document used to witness the header and footer placement. -/
def c9Doc : ResumeDocument :=
  { name := some "Finley Rhodes", professionalSummary := some "S." }

/-- Witness for C9 at a concrete input and concrete pages one and two. -/
theorem header_footer_pages_witness :
    headerForPage (documentSectionProperties c9Doc) 1 = []
    ∧ headerForPage (documentSectionProperties c9Doc) 2 =
        [confidentialityHeaderParagraph "Finley Rhodes"]
    ∧ footerForPage (documentSectionProperties c9Doc) 1 = [footerParagraph] := by
  have h := header_footer_pages c9Doc 2 (by decide)
  exact ⟨h.1, by simpa [c9Doc] using h.2.1, h.2.2.2.2.1 1⟩

/-- C10: when both education and certifications are present and non-empty
the merged section is the single heading followed by all blocks of the
education entries in input order and then all blocks of the certification
entries in input order, embedded at its fixed position in the full block
list. -/
theorem education_before_certifications (hasLogo : Bool) (d : ResumeDocument)
    (edus : List EducationEntry) (certs : List CertEntry)
    (hed : d.education = some edus) (hedne : edus ≠ [])
    (hcert : d.certifications = some certs) (hcertne : certs ≠ []) :
    generateCV hasLogo d =
      logoChunk hasLogo ++ nameChunk d ++ summaryChunk d ++ competenciesChunk d ++
        experienceChunk d ++
        (createSectionHeading "Education & Certification" ::
          (edus.flatMap eduBlocks ++ certs.flatMap certBlocks)) ++
        leadershipChunk d ++ technicalChunk d := by
  have hchunk : educationCertificationChunk d =
      createSectionHeading "Education & Certification" ::
        (edus.flatMap eduBlocks ++ certs.flatMap certBlocks) := by
    simp [educationCertificationChunk, hed, hcert, listTruthy, List.length_pos, hedne, hcertne]
  rw [generateCV, hchunk]

/-- An education entry for the C10 witness. -/
def c10Edu : EducationEntry :=
  { degree := "BSc Economics", institution := "LSE", location := "London",
    date := "2019", details := none }

/-- A certification entry for the C10 witness. -/
def c10Cert : CertEntry :=
  { name := "CFA Level I", details := some "Passed 2020" }

/-- A document with one education and one certification entry. -/
def c10Doc : ResumeDocument :=
  { name := some "Gray Idris"
    professionalSummary := some "S."
    education := some [c10Edu]
    certifications := some [c10Cert] }

/-- Witness for C10 at a concrete input. -/
theorem education_before_certifications_witness :
    generateCV false c10Doc =
      logoChunk false ++ nameChunk c10Doc ++ summaryChunk c10Doc ++ competenciesChunk c10Doc ++
        experienceChunk c10Doc ++
        (createSectionHeading "Education & Certification" ::
          ([c10Edu].flatMap eduBlocks ++ [c10Cert].flatMap certBlocks)) ++
        leadershipChunk c10Doc ++ technicalChunk c10Doc :=
  education_before_certifications false c10Doc [c10Edu] [c10Cert] rfl (by decide) rfl (by decide)
